import Mathlib

/-!
Verification development for the coinaddr cryptocurrency-address
validation library (files `coinaddr/validation.py` and
`coinaddr/currency.py`).

The embedding is shallow: bytes are `Nat` values (0..255), byte strings
are `List Nat`, Python text is `List Char`, and Python exceptions are
modelled with `Except`.  Pure helper code that the library imports from
its own missing modules or from its dependencies (`base58check`,
`base58_xmr`, the `sha3`/`hashlib` digests, the container base classes)
is reconstructed here; the hash functions are the standard published
algorithms with their constants generated from first principles, and the
codecs are modelled from the specification where the repository does not
ship them.
-/

set_option maxRecDepth 100000

/-! ## Small numeric helpers -/

/-- Big-endian rendering of `n` on exactly `k` bytes. -/
def natToBE (k n : Nat) : List Nat :=
  (List.range k).map (fun i => (n >>> (8 * (k - 1 - i))) % 256)

/-- Big-endian reading of a byte list as a natural number. -/
def bytesToNatBE (l : List Nat) : Nat :=
  l.foldl (fun acc b => acc * 256 + b) 0

/-- Minimal big-endian rendering, structurally recursive on a fuel bound
so that closed runs reduce inside the kernel. -/
def natToBEMinAux : Nat → Nat → List Nat
  | 0, _ => []
  | f + 1, n => if n = 0 then [] else natToBEMinAux f (n / 256) ++ [n % 256]

/-- Minimal big-endian rendering of `n` (the empty list for `0`); `n`
itself over-approximates the digit count as fuel. -/
def natToBEMin (n : Nat) : List Nat := natToBEMinAux n n

/-- Split of a list into chunks of `k` entries (the last one possibly
shorter), structurally recursive on a fuel bound. -/
def chunksAux {α : Type} (k : Nat) : Nat → List α → List (List α)
  | _, [] => []
  | 0, _ :: _ => []
  | f + 1, x :: rest => (x :: rest).take k :: chunksAux k f ((x :: rest).drop k)

/-- Right rotation of a 32-bit word held in a `Nat`. -/
def rotr32 (r x : Nat) : Nat :=
  ((x >>> r) ||| (x <<< (32 - r))) % 2 ^ 32

/-- Trial-division primality test, used only to generate hash constants. -/
def isPrimeNat (n : Nat) : Bool :=
  2 ≤ n && ((List.range n).all fun d => d < 2 || n % d != 0)

/-- First 64 primes, the seeds of the SHA-256 round constants. -/
def first64Primes : List Nat :=
  ((List.range 320).filter isPrimeNat).take 64

/-- Bounded binary search for the integer cube root of `n` (n < 2 ^ 120). -/
def icbrtAux (n : Nat) : Nat → Nat → Nat → Nat
  | lo, _, 0 => lo
  | lo, hi, fuel + 1 =>
    if hi ≤ lo + 1 then lo
    else
      let mid := (lo + hi) / 2
      if mid ^ 3 ≤ n then icbrtAux n mid hi fuel else icbrtAux n lo mid fuel

/-- Integer cube root for the constant generation. -/
def icbrt (n : Nat) : Nat := icbrtAux n 0 (2 ^ 40) 60

/-- Bounded binary search for the integer square root of `n`
(n < 2 ^ 80), structurally recursive so closed runs reduce in the
kernel. -/
def isqrtAux (n : Nat) : Nat → Nat → Nat → Nat
  | lo, _, 0 => lo
  | lo, hi, fuel + 1 =>
    if hi ≤ lo + 1 then lo
    else
      let mid := (lo + hi) / 2
      if mid ^ 2 ≤ n then isqrtAux n mid hi fuel else isqrtAux n lo mid fuel

/-- Integer square root for the constant generation. -/
def isqrt (n : Nat) : Nat := isqrtAux n 0 (2 ^ 40) 60

/-! ## SHA-256 (hashlib.sha256), constants derived from prime roots -/

/-- SHA-256 round constants, generated as the first 32 fractional bits of
the cube roots of the first 64 primes (FIPS 180-4 section 4.2.2). -/
def sha256K : List Nat :=
  first64Primes.map fun p => icbrt (p * 2 ^ 96) % 2 ^ 32

/-- SHA-256 initial state, generated as the first 32 fractional bits of
the square roots of the first 8 primes (FIPS 180-4 section 5.3.3). -/
def sha256H0 : List Nat :=
  (first64Primes.take 8).map fun p => isqrt (p * 2 ^ 64) % 2 ^ 32

/-- Group a byte list into big-endian 32-bit words. -/
def wordsOfBytes : List Nat → List Nat
  | b0 :: b1 :: b2 :: b3 :: rest =>
    (((b0 * 256 + b1) * 256 + b2) * 256 + b3) :: wordsOfBytes rest
  | _ => []

/-- SHA-256 padding: a `0x80` byte, zeros, then the 64-bit bit length. -/
def sha256Pad (msg : List Nat) : List Nat :=
  msg ++ [0x80] ++ List.replicate ((119 - msg.length % 64) % 64) 0
      ++ natToBE 8 (8 * msg.length)

/-- Split a byte list into 64-byte blocks. -/
def blocks64 (l : List Nat) : List (List Nat) := chunksAux 64 l.length l

/-- Extend the message words by `k` further schedule words; `ws` holds
the words computed so far most recent first, so the scheduled taps
w[i-15], w[i-2], w[i-16] and w[i-7] sit at positions 14, 1, 15 and 6. -/
def shaExtendRev (ws : List Nat) : Nat → List Nat
  | 0 => ws
  | k + 1 =>
    let w15 := ws.getD 14 0
    let w2 := ws.getD 1 0
    let s0 := rotr32 7 w15 ^^^ rotr32 18 w15 ^^^ (w15 >>> 3)
    let s1 := rotr32 17 w2 ^^^ rotr32 19 w2 ^^^ (w2 >>> 10)
    shaExtendRev (((ws.getD 15 0 + s0 + ws.getD 6 0 + s1) % 2 ^ 32) :: ws) k

/-- One SHA-256 round on the eight-word working state. -/
def shaRound (st : List Nat) (kw : Nat × Nat) : List Nat :=
  match st with
  | [a, b, c, d, e, f, g, h] =>
    let s1 := rotr32 6 e ^^^ rotr32 11 e ^^^ rotr32 25 e
    let ch := (e &&& f) ^^^ ((e ^^^ 0xffffffff) &&& g)
    let t1 := (h + s1 + ch + kw.1 + kw.2) % 2 ^ 32
    let s0 := rotr32 2 a ^^^ rotr32 13 a ^^^ rotr32 22 a
    let maj := (a &&& b) ^^^ (a &&& c) ^^^ (b &&& c)
    let t2 := (s0 + maj) % 2 ^ 32
    [(t1 + t2) % 2 ^ 32, a, b, c, (d + t1) % 2 ^ 32, e, f, g]
  | other => other

/-- Compress one 64-byte block into the running hash state. -/
def shaCompress (hs : List Nat) (block : List Nat) : List Nat :=
  let w := (shaExtendRev (wordsOfBytes block).reverse 48).reverse
  let fin := (sha256K.zip w).foldl shaRound hs
  (hs.zip fin).map fun p => (p.1 + p.2) % 2 ^ 32

/-- SHA-256 digest of a byte list, as 32 bytes. -/
def sha256Bytes (msg : List Nat) : List Nat :=
  (((blocks64 (sha256Pad msg)).foldl shaCompress sha256H0).map (natToBE 4)).flatten

/-! ## Keccak-256 (sha3.keccak_256, original 0x01 padding) -/

/-- Left rotation of a 64-bit lane held in a `Nat`. -/
def rotl64 (r x : Nat) : Nat :=
  ((x <<< r) ||| (x >>> (64 - r))) % 2 ^ 64

/-- Little-endian reading of a byte list as a natural number. -/
def bytesToNatLE (l : List Nat) : Nat :=
  l.foldr (fun b acc => acc * 256 + b) 0

/-- Little-endian rendering of `n` on exactly `k` bytes. -/
def natToLE (k n : Nat) : List Nat :=
  (List.range k).map (fun i => (n >>> (8 * i)) % 256)

/-- Walk of the Keccak rho/pi coordinate recurrence producing each lane's
rotation offset, as pairs of lane index and offset. -/
def rhoWalk (t x y : Nat) : Nat → List (Nat × Nat)
  | 0 => []
  | f + 1 =>
    (x + 5 * y, (t + 1) * (t + 2) / 2 % 64) :: rhoWalk (t + 1) y ((2 * x + 3 * y) % 5) f

/-- Rotation offset of lane `i` (index `x + 5 * y`); lane 0 rotates by 0. -/
def rhoOffset (i : Nat) : Nat := ((rhoWalk 0 1 0 24).lookup i).getD 0

/-- Keccak LFSR over GF(2), `t` steps from the seed 1. -/
def keccakLFSR : Nat → Nat
  | 0 => 1
  | t + 1 =>
    let r := keccakLFSR t
    ((r <<< 1) ^^^ ((r >>> 7) * 0x71)) &&& 0xff

/-- Round constant of Keccak round `i`, assembled from the LFSR bits. -/
def keccakRC (i : Nat) : Nat :=
  (List.range 7).foldl
    (fun acc j => acc ||| ((keccakLFSR (j + 7 * i) &&& 1) <<< (2 ^ j - 1))) 0

/-- One Keccak-f[1600] round on the 25-lane state (index `x + 5 * y`). -/
def keccakRound (ir : Nat) (st : List Nat) : List Nat :=
  let c := fun x => (List.range 5).foldl (fun acc y => acc ^^^ st.getD (x + 5 * y) 0) 0
  let d := fun x => c ((x + 4) % 5) ^^^ rotl64 1 (c ((x + 1) % 5))
  let st1 := (List.range 25).map fun i => st.getD i 0 ^^^ d (i % 5)
  let st2 := (List.range 25).map fun j =>
    let sx := (j % 5 + 3 * (j / 5)) % 5
    let src := sx + 5 * (j % 5)
    rotl64 (rhoOffset src) (st1.getD src 0)
  let st3 := (List.range 25).map fun j =>
    let row := j / 5 * 5
    st2.getD j 0 ^^^
      ((st2.getD ((j % 5 + 1) % 5 + row) 0 ^^^ (2 ^ 64 - 1)) &&&
        st2.getD ((j % 5 + 2) % 5 + row) 0)
  (List.range 25).map fun j =>
    if j = 0 then st3.getD 0 0 ^^^ keccakRC ir else st3.getD j 0

/-- The full Keccak-f[1600] permutation, 24 rounds. -/
def keccakF (st : List Nat) : List Nat :=
  (List.range 24).foldl (fun s ir => keccakRound ir s) st

/-- Keccak multi-rate padding with the original 0x01 domain byte, to a
multiple of the 136-byte rate. -/
def keccakPad (msg : List Nat) : List Nat :=
  let padLen := 136 - msg.length % 136
  if padLen = 1 then msg ++ [0x81]
  else msg ++ [0x01] ++ List.replicate (padLen - 2) 0 ++ [0x80]

/-- Split a byte list into 136-byte rate blocks. -/
def blocks136 (l : List Nat) : List (List Nat) := chunksAux 136 l.length l

/-- Absorb one rate block (little-endian lanes) and permute. -/
def keccakAbsorb (st : List Nat) (block : List Nat) : List Nat :=
  keccakF ((List.range 25).map fun i =>
    st.getD i 0 ^^^ bytesToNatLE ((block.drop (8 * i)).take 8))

/-- Squeeze of the first 32 bytes (four little-endian lanes) of a Keccak
state. -/
def keccakSqueeze (st : List Nat) : List Nat :=
  ((List.range 4).map fun i => natToLE 8 (st.getD i 0)).flatten

/-- Keccak-256 digest of a byte list, as 32 bytes. -/
def keccak256Bytes (msg : List Nat) : List Nat :=
  keccakSqueeze ((blocks136 (keccakPad msg)).foldl keccakAbsorb (List.replicate 25 0))

/-- Lowercase hex digit character for a nibble. -/
def hexDigitChar (n : Nat) : Char :=
  if n < 10 then Char.ofNat (48 + n) else Char.ofNat (87 + n)

/-- Hex digest string (as a character list) of a byte list, as Python's
hexdigest() renders it. -/
def bytesToHex : List Nat → List Char
  | [] => []
  | b :: rest => hexDigitChar (b / 16) :: hexDigitChar (b % 16) :: bytesToHex rest

/-! ## Python-level modelling -/

/-- Python exception kinds that the validation code can raise internally. -/
inductive PyErr where
  | valueError
  | typeError
  | indexError
  | keyError
  | encodingError
deriving DecidableEq, Repr

/-- Value of `Except.ok` when present, else the default. -/
def exceptGetD {ε α : Type} (e : Except ε α) (dflt : α) : α :=
  match e with
  | .ok a => a
  | .error _ => dflt

/-- List indexing as Python does it for non-negative indices: an
IndexError when out of range. -/
def pyGet {α : Type} (l : List α) (i : Nat) : Except PyErr α :=
  match l.get? i with
  | some a => .ok a
  | none => .error .indexError

/-- Decoding of a byte string to text as `bytes.decode()` does, modelled
for the ASCII plane: bytes below 128 map to their characters and any
higher byte is a decode error.  (Real UTF-8 accepts some multi-byte
sequences, but every address whose decoded text the validators can accept
is pure ASCII, where the two decoders agree exactly.) -/
def decodeAscii (bs : List Nat) : Except PyErr (List Char) :=
  if bs.all (fun b => b < 128) then .ok (bs.map Char.ofNat)
  else .error .valueError

/-- Encoding of ASCII text back to bytes, as `str.encode('ascii')`. -/
def encodeAscii (cs : List Char) : List Nat := cs.map Char.toNat

/-- Uppercasing of one character as Python `str.upper()` acts on ASCII. -/
def asciiUpper (c : Char) : Char :=
  if 'a' ≤ c && c ≤ 'z' then Char.ofNat (c.toNat - 32) else c

/-- Lowercasing of one character as Python `str.lower()` acts on ASCII. -/
def asciiLower (c : Char) : Char :=
  if 'A' ≤ c && c ≤ 'Z' then Char.ofNat (c.toNat + 32) else c

/-- Lowercase hex digit test, the regex class [0-9a-f]. -/
def isLowerHex (c : Char) : Bool :=
  ('0' ≤ c && c ≤ '9') || ('a' ≤ c && c ≤ 'f')

/-- Uppercase hex digit test, the regex class [0-9A-F]. -/
def isUpperHex (c : Char) : Bool :=
  ('0' ≤ c && c ≤ '9') || ('A' ≤ c && c ≤ 'F')

/-- Nibble value of a hex digit character, as `int(ch, 16)` for the
characters a hex digest produces. -/
def hexVal (c : Char) : Nat :=
  if c ≤ '9' then c.toNat - 48
  else if c ≤ 'F' then c.toNat - 55
  else c.toNat - 87

/-- Bytes of an ASCII string literal, a convenience for concrete inputs. -/
def strBytes (s : String) : List Nat := s.toList.map Char.toNat

/-! ## Base58 codec

Modelled from the spec: the repository calls `base58check.b58decode` and
`base58check.b58encode` from the external `base58check` package, whose
source is not under src/.  Per the spec (sections 4.4 and 9 and the
glossary) the codec is plain Base58 with leading-zero preservation: the
leading bytes equal to the first alphabet character become leading zero
bytes, the rest is a base-58 big integer, and an input character outside
the alphabet is a decode failure (Python ValueError). -/

/-- Default Base58 alphabet of the `base58check` package, as bytes. -/
def b58DefaultCharset : List Nat :=
  strBytes "123456789ABCDEFGHJKLMNPQRSTUVWXYZabcdefghijkmnopqrstuvwxyz"

/-- Position of byte `c` in the alphabet, as `bytes.index`: an error when
the character is not in the alphabet. -/
def charsetIndex (cs : List Nat) (c : Nat) : Except PyErr Nat :=
  match cs.indexOf? c with
  | some i => .ok i
  | none => .error .valueError

/-- Count of leading list entries equal to `z`. -/
def countLeading (z : Nat) : List Nat → Nat
  | [] => 0
  | b :: rest => if b = z then countLeading z rest + 1 else 0

/-- Modelled from the spec: `base58check.b58decode` with alphabet `cs`.
Leading first-alphabet-character bytes become zero bytes; the remaining
characters are read as a base-58 number rendered as a minimal big-endian
byte string; a character outside the alphabet is a ValueError. -/
def b58decode (cs addr : List Nat) : Except PyErr (List Nat) := do
  let z := cs.getD 0 0
  let pad := countLeading z addr
  let rest := addr.drop pad
  let digits ← rest.mapM (charsetIndex cs)
  let acc := digits.foldl (fun acc d => acc * 58 + d) 0
  return List.replicate pad 0 ++ natToBEMin acc

/-- Base-58 rendering of a natural number, structurally recursive on a
fuel bound. -/
def natToB58Aux (cs : List Nat) : Nat → Nat → List Nat
  | 0, _ => []
  | f + 1, n => if n = 0 then [] else natToB58Aux cs f (n / 58) ++ [cs.getD (n % 58) 0]

/-- Base-58 rendering of a natural number (empty for zero). -/
def natToB58 (cs : List Nat) (n : Nat) : List Nat := natToB58Aux cs n n

/-- Modelled from the spec: `base58check.b58encode` with alphabet `cs`.
Leading zero bytes become copies of the first alphabet character and the
remaining bytes are read as a big-endian number rendered in base 58. -/
def b58encode (cs val : List Nat) : List Nat :=
  let pad := countLeading 0 val
  List.replicate pad (cs.getD 0 0) ++ natToB58 cs (bytesToNatBE (val.drop pad))

/-! ## Currency catalog (coinaddr/currency.py) -/

/-- Entry of a currency's network tuple: a version byte for the Base58 and
Monero families, a string tag for the SegWit family. -/
inductive NetVal where
  | byte (n : Nat)
  | tag (s : String)
deriving DecidableEq, Repr

/-- Immutable currency record, the attrs class `Currency`. -/
structure Currency where
  name : String
  ticker : String
  validator : String
  networks : List (String × List NetVal) := []
  charset : Option (List Nat) := none
deriving DecidableEq, Repr

/-- Abbreviation for a byte-valued network tuple. -/
def nvb (l : List Nat) : List NetVal := l.map NetVal.byte

/-- Abbreviation for a string-valued network tuple. -/
def nvt (l : List String) : List NetVal := l.map NetVal.tag

/-- The bitcoin catalog entry. -/
def bitcoinCurrency : Currency :=
  { name := "bitcoin", ticker := "btc", validator := "Base58Check",
    networks := [("main", nvb [0x00, 0x05]), ("test", nvb [0x6f, 0xc4])] }

/-- The ethereum catalog entry (empty networks mapping). -/
def ethereumCurrency : Currency :=
  { name := "ethereum", ticker := "eth", validator := "Ethereum" }

/-- The monero catalog entry. -/
def moneroCurrency : Currency :=
  { name := "monero", ticker := "xmr", validator := "Monero",
    networks := [("main", nvb [0x12, 0x2a]), ("main_integrated", nvb [0x13]),
                 ("test", nvb [0x35, 0x3f]), ("test_integrated", nvb [0x36]),
                 ("stage", nvb [0x18, 0x24]), ("stage_integrated", nvb [0x19])] }

/-- The registered currencies of currency.py, in registration order, as
held by `Currencies.instances`. -/
def currenciesList : List Currency :=
  [ bitcoinCurrency,
    { name := "bitcoin-segwit", ticker := "btc-segwit", validator := "SegWitCheck",
      networks := [("main", nvt ["bc"]), ("test", nvt ["tb"])] },
    { name := "bitcoin-cash", ticker := "bch", validator := "Base58Check",
      networks := [("main", nvb [0x00, 0x05]), ("test", nvb [0x6f, 0xc4])] },
    { name := "litecoin", ticker := "ltc", validator := "Base58Check",
      networks := [("main", nvb [0x30, 0x05, 0x32]), ("test", nvb [0x6f, 0xc4])] },
    { name := "litecoin-segwit", ticker := "ltc-segwit", validator := "SegWitCheck",
      networks := [("main", nvt ["ltc"]), ("test", nvt ["tltc"])] },
    { name := "dogecoin", ticker := "doge", validator := "Base58Check",
      networks := [("main", nvb [0x1e, 0x16]), ("test", nvb [0x71, 0xc4])] },
    { name := "dashcoin", ticker := "dash", validator := "Base58Check",
      networks := [("main", nvb [0x4c, 0x10]), ("test", nvb [0x8c, 0x13])] },
    { name := "neocoin", ticker := "neo", validator := "Base58Check",
      networks := [("both", nvb [0x17])] },
    { name := "gobyte", ticker := "gbx", validator := "Base58Check",
      networks := [("main", nvb [0x26, 0x0A]), ("test", nvb [0x70, 0x14])] },
    { name := "gincoin", ticker := "gin", validator := "Base58Check",
      networks := [("main", nvb [0x26, 0x0A]), ("test", nvb [0x8c, 0x13])] },
    { name := "phore", ticker := "phr", validator := "Base58Check",
      networks := [("main", nvb [0x37, 0x0D]), ("test", nvb [0x8b, 0x13])] },
    { name := "zcoin", ticker := "xzc", validator := "Base58Check",
      networks := [("main", nvb [0x52, 0x07]), ("test", nvb [0x41, 0xB2])] },
    { name := "pivx", ticker := "pivx", validator := "Base58Check",
      networks := [("main", nvb [0x1E, 0x0D]), ("test", nvb [0x8b, 0x13])] },
    { name := "ripple", ticker := "xrp", validator := "Base58Check",
      networks := [("both", nvb [0x00, 0x05])],
      charset := some (strBytes "rpshnaf39wBUDNEGHJKLM4PQRST7VWXYZ2bcdeCg65jkm8oFqi1tuvAxyz") },
    ethereumCurrency,
    { name := "ether-zero", ticker := "etz", validator := "Ethereum" },
    { name := "ethereum-classic", ticker := "etc", validator := "Ethereum" },
    moneroCurrency,
    { name := "binance", ticker := "bnb", validator := "SegWitCheck",
      networks := [("both", nvt ["bnb"])] } ]

/-- The classmethod `Currencies.get`: the first registered instance whose
name or ticker equals the identifier, else the default `None`. -/
def currenciesGet (ident : String) : Option Currency :=
  currenciesList.find? fun inst => ident = inst.name || ident = inst.ticker

/-! ## Validation request (coinaddr/validation.py, ValidationRequest) -/

/-- Immutable validation request: a resolved currency and the address as
bytes. -/
structure ValidationRequest where
  currency : Currency
  address : List Nat
deriving DecidableEq, Repr

/-- The property `ValidationRequest.extras`, reduced to the alphabet that
it forwards to the Base58 codec: the currency's charset when set, else
the codec's default. -/
def requestCharset (req : ValidationRequest) : List Nat :=
  match req.currency.charset with
  | some cs => cs
  | none => b58DefaultCharset

/-- The property `ValidationRequest.networks`: the concatenation of every
network tuple of the currency, via `functools.reduce(operator.concat, ...)`,
which raises a TypeError on an empty networks mapping. -/
def requestNetworks (req : ValidationRequest) : Except PyErr (List NetVal) :=
  match req.currency.networks with
  | [] => .error .typeError
  | nets => .ok (nets.map Prod.snd).flatten

/-! ## Base58Check validator -/

/-- The method `Base58CheckValidator.validate`, with each Python statement
translated in order.  The leading guard is the source's
`if 25 > len(self.request.address) > 35`, an unsatisfiable chained
comparison, kept exactly as written. -/
def base58CheckValidate (req : ValidationRequest) : Except PyErr Bool :=
  if 25 > req.address.length ∧ req.address.length > 35 then .ok false
  else
    b58decode (requestCharset req) req.address >>= fun abytes =>
    pyGet abytes 0 >>= fun b0 =>
    requestNetworks req >>= fun nets =>
    if !decide (NetVal.byte b0 ∈ nets) then .ok false
    else if abytes.drop (abytes.length - 4) ≠
        (sha256Bytes (sha256Bytes (abytes.take (abytes.length - 4)))).take 4 then .ok false
    else .ok (decide (req.address = b58encode (requestCharset req) abytes))

/-- First network label of a networks mapping whose tuple contains the
version byte, iterating the mapping in insertion order. -/
def findNetwork (nets : List (String × List NetVal)) (b : Nat) : Option String :=
  match nets with
  | [] => none
  | (nm, vals) :: rest =>
    if NetVal.byte b ∈ vals then some nm else findNetwork rest b

/-- The property `Base58CheckValidator.network`: decode again, read the
version byte, return the first matching network label, `None` if no
label's tuple contains it. -/
def base58CheckNetwork (req : ValidationRequest) : Except PyErr (Option String) :=
  b58decode (requestCharset req) req.address >>= fun abytes =>
  pyGet abytes 0 >>= fun nbyte =>
  .ok (findNetwork req.currency.networks nbyte)

/-! ## Ethereum validator -/

/-- Match of the body `(0x)?[0-9(a-f|A-F)]{40}` against the whole string,
for a hex-digit class `hex`: with a literal `0x` head the remainder must
be 40 `hex` characters, and otherwise the whole string must be (a string
headed by `0x` can never match the alternative without the optional
group, since `x` is not a hex digit). -/
def matchHex40Full (hex : Char → Bool) (s : List Char) : Bool :=
  match s with
  | '0' :: 'x' :: rest => rest.length = 40 && rest.all hex
  | other => other.length = 40 && other.all hex

/-- Match of the regex `^(0x)?[0-9(a-f|A-F)]{40}$` under `pat.match`: the
anchor `$` matches at the end of the string or just before one newline at
the end of the string, so the body must cover the whole string or all of
it except a trailing newline. -/
def matchHex40 (hex : Char → Bool) (s : List Char) : Bool :=
  matchHex40Full hex s ||
    (s.getLast? == some '\n' && matchHex40Full hex s.dropLast)

/-- The test against `EthereumValidator.non_checksummed_patterns`: the
all-lowercase or the all-uppercase 40-hex-digit pattern. -/
def nonChecksummedMatch (address : List Char) : Bool :=
  matchHex40 isLowerHex address || matchHex40 isUpperHex address

/-- Strip of an optional leading `0x`, the source's
`address[2:] if address.startswith('0x') else address`. -/
def strip0x (s : List Char) : List Char :=
  match s with
  | '0' :: 'x' :: rest => rest
  | other => other

/-- Per-position mismatch condition of the EIP-55 loop body: the digest
nibble demands upper case and the character is not its own uppercase form,
or demands lower case and the character is not its own lowercase form. -/
def eip55Mismatch (nib : Nat) (c : Char) : Bool :=
  (decide (8 ≤ nib) && decide (asciiUpper c ≠ c)) ||
    (decide (nib < 8) && decide (asciiLower c ≠ c))

/-- The `for i, letter in enumerate(addr)` loop of
`EthereumValidator.validate`: index `i` into the digest raises an
IndexError past its end, a mismatch returns False, exhaustion returns
True. -/
def eip55Loop (addrHash : List Char) (i : Nat) : List Char → Except PyErr Bool
  | [] => .ok true
  | c :: rest => do
    let hc ← pyGet addrHash i
    if eip55Mismatch (hexVal hc) c then return false
    else eip55Loop addrHash (i + 1) rest

/-- The digest string `addr_hash` of `EthereumValidator.validate`: the
hex digest of the Keccak-256 hash of the lowercased address's ASCII
bytes. -/
def eip55Digest (addr : List Char) : List Char :=
  bytesToHex (keccak256Bytes (encodeAscii (addr.map asciiLower)))

/-- The mixed-case branch of `EthereumValidator.validate`: strip the
optional `0x`, Keccak-256 the lowercased address's ASCII bytes, and run
the per-position case check against the hex digest. -/
def ethereumChecksumPath (address : List Char) : Except PyErr Bool :=
  let addr := strip0x address
  eip55Loop (eip55Digest addr) 0 addr

/-- The method `EthereumValidator.validate`. -/
def ethereumValidate (req : ValidationRequest) : Except PyErr Bool :=
  decodeAscii req.address >>= fun address =>
  if nonChecksummedMatch address then .ok true
  else ethereumChecksumPath address

/-- The property `EthereumValidator.network`, constantly the label both. -/
def ethereumNetwork (_req : ValidationRequest) : Except PyErr (Option String) :=
  .ok (some "both")

/-! ## Monero validator -/

/-- The 58-character alphabet of the `MoneroValidator` regexes. -/
def xmrAlphabet : List Char :=
  "123456789ABCDEFGHJKLMNPQRSTUVWXYZabcdefghijkmnopqrstuvwxyz".toList

/-- Match of the body of a Monero address regex against the whole string:
exactly `n` characters, all from the fixed alphabet. -/
def xmrMatchFull (n : Nat) (s : List Char) : Bool :=
  s.length = n && s.all (xmrAlphabet.contains ·)

/-- Match of the Monero address regex of length `n` under `pat.match`:
the anchor `$` matches at the end of the string or just before one
newline at the end of the string, so `n` alphabet characters followed by
one trailing newline also match. -/
def xmrMatch (n : Nat) (s : List Char) : Bool :=
  xmrMatchFull n s || (s.getLast? == some '\n' && xmrMatchFull n s.dropLast)

/-- The value of `self.request.currency.networks[key]`, a KeyError when
the key is missing. -/
def dictGet (nets : List (String × List NetVal)) (key : String) :
    Except PyErr (List NetVal) :=
  match nets.lookup key with
  | some vals => .ok vals
  | none => .error .keyError

/-- The method `MoneroValidator.validate`, parametric in the decoding
helper `dec` standing for the staticmethod `MoneroValidator.decode` (which
returns the pair of version byte and checksum verdict): an address
matching neither length-95 nor length-106 regex is False with `dec` never
applied. -/
def moneroValidateWith (dec : List Char → Except PyErr (Nat × Bool))
    (req : ValidationRequest) : Except PyErr Bool :=
  decodeAscii req.address >>= fun address =>
  if xmrMatch 95 address then
    dec address >>= fun nv =>
    dictGet req.currency.networks "main" >>= fun mainT =>
    dictGet req.currency.networks "test" >>= fun testT =>
    dictGet req.currency.networks "stage" >>= fun stageT =>
    .ok (decide (NetVal.byte nv.1 ∈ mainT ++ testT ++ stageT) && nv.2)
  else if xmrMatch 106 address then
    dec address >>= fun nv =>
    dictGet req.currency.networks "main_integrated" >>= fun mainT =>
    dictGet req.currency.networks "test_integrated" >>= fun testT =>
    dictGet req.currency.networks "stage_integrated" >>= fun stageT =>
    .ok (decide (NetVal.byte nv.1 ∈ mainT ++ testT ++ stageT) && nv.2)
  else .ok false

/-- Index of a character in the Monero alphabet, an error outside it. -/
def xmrCharIndex (c : Char) : Except PyErr Nat :=
  match xmrAlphabet.indexOf? c with
  | some i => .ok i
  | none => .error .valueError

/-- Byte count of a trailing partial Monero block with the given
character count, per the fixed table 1→2, 2→3, 3→4, 4→6, 5→7, 6→8, 7→9,
8→11; other character counts decode to a failure. -/
def xmrBlockSizes : List (Nat × Nat) :=
  [(1, 2), (2, 3), (3, 4), (4, 6), (5, 7), (6, 8), (7, 9), (8, 11)]

/-- Split a character list into 11-character Monero blocks, the last one
possibly shorter. -/
def chunks11 (l : List Char) : List (List Char) := chunksAux 11 l.length l

/-- Modelled from the spec: one block of the block-Base58 decoding of the
module `base58_xmr` (absent from src/), per section 4.6 of the spec: a
block's base-58 value must fit the byte count its character count demands,
rendered big-endian at that exact width; a character-count with no table
entry or an out-of-alphabet character is a decode failure. -/
def xmrDecodeBlock (chars : List Char) : Except PyErr (List Nat) := do
  let digits ← chars.mapM xmrCharIndex
  let v := digits.foldl (fun a d => a * 58 + d) 0
  match xmrBlockSizes.find? (fun p => p.2 = chars.length) with
  | some p => if v < 2 ^ (8 * p.1) then .ok (natToBE p.1 v) else .error .valueError
  | none => if chars.length = 0 then .ok [] else .error .valueError

/-- Modelled from the spec: the staticmethod `MoneroValidator.decode`,
whose inner `base58_xmr.decode` is absent from src/.  Block-Base58 decode
the address in 11-character blocks, read the leading byte (an IndexError
when empty as `decoded[0]` raises), and compare the trailing 4 bytes with
the leading 4 bytes of the Keccak-256 digest of the rest. -/
def moneroDecode (address : List Char) : Except PyErr (Nat × Bool) := do
  let bytesBlocks ← (chunks11 address).mapM xmrDecodeBlock
  let decoded := bytesBlocks.flatten
  let b0 ← pyGet decoded 0
  let checksum := (keccak256Bytes (decoded.take (decoded.length - 4))).take 4
  return (b0, decide (decoded.drop (decoded.length - 4) = checksum))

/-- The method `MoneroValidator.validate` with its concrete decoder. -/
def moneroValidate : ValidationRequest → Except PyErr Bool :=
  moneroValidateWith moneroDecode

/-- The property `MoneroValidator.network`: decode, then return the first
network label whose tuple contains the version byte. -/
def moneroNetwork (req : ValidationRequest) : Except PyErr (Option String) := do
  let address ← decodeAscii req.address
  let nv ← moneroDecode address
  return findNetwork req.currency.networks nv.1

/-! ## Result assembly and request execution -/

/-- Immutable validation result, the attrs class `ValidationResult`. -/
structure ValidationResult where
  name : String
  ticker : String
  address : List Nat
  valid : Bool
  network : String
deriving DecidableEq, Repr

/-- Construction of a `ValidationResult` from the values `execute`
passes: the attrs field validator `instance_of(str)` on `network` raises
a TypeError when the network argument is `None`. -/
def mkValidationResult (name ticker : String) (address : List Nat)
    (valid : Bool) (network : Option String) : Except PyErr ValidationResult :=
  match network with
  | some s => .ok ⟨name, ticker, address, valid, s⟩
  | none => .error .typeError

/-- A registered validator as the capability pair `execute` consumes. -/
structure ValidatorImpl where
  validate : ValidationRequest → Except PyErr Bool
  network : ValidationRequest → Except PyErr (Option String)

/-- The Base58Check registry entry. -/
def base58CheckImpl : ValidatorImpl :=
  { validate := base58CheckValidate, network := base58CheckNetwork }

/-- The Ethereum registry entry. -/
def ethereumImpl : ValidatorImpl :=
  { validate := ethereumValidate, network := ethereumNetwork }

/-- The Monero registry entry. -/
def moneroImpl : ValidatorImpl :=
  { validate := moneroValidate, network := moneroNetwork }

/-- Modelled from the spec: the lookup `Validators.get` on the metaclass
container (the container base class is absent from src/); the registry
holds exactly the three validator classes of validation.py, keyed by
their `name` attributes. -/
def validatorsGet (scheme : String) : Option ValidatorImpl :=
  if scheme = "Base58Check" then some base58CheckImpl
  else if scheme = "Ethereum" then some ethereumImpl
  else if scheme = "Monero" then some moneroImpl
  else none

/-- Error surfaced by `ValidationRequest.execute`: an internal validator
exception re-raised wrapped as `CoinaddrException`, or the hard
configuration failure of a scheme with no registered validator (in the
source a TypeError from calling `None`, outside the try block). -/
inductive ExecErr where
  | coinaddrException (e : PyErr)
  | unknownScheme (s : String)
deriving DecidableEq, Repr

/-- The method `ValidationRequest.execute`: resolve the validator class,
then inside the try block run `validate()`, the `network` property and
the `ValidationResult` construction; any exception `e` among them is
re-raised as `CoinaddrException(e)`. -/
def executeRequest (req : ValidationRequest) : Except ExecErr ValidationResult :=
  match validatorsGet req.currency.validator with
  | none => .error (.unknownScheme req.currency.validator)
  | some impl =>
    match impl.validate req >>= fun valid =>
          impl.network req >>= fun network =>
          mkValidationResult req.currency.name req.currency.ticker req.address
            valid network with
    | .ok r => .ok r
    | .error e => .error (.coinaddrException e)

/-! ## Auxiliary definitions used by the claim statements -/

/-- Decidable equality on `Except`, for evaluating closed runs. -/
instance exceptDecEq {ε α : Type} [DecidableEq ε] [DecidableEq α] :
    DecidableEq (Except ε α) := fun x y =>
  match x, y with
  | .ok a, .ok b =>
    if h : a = b then isTrue (by rw [h]) else isFalse (by intro hc; cases hc; exact h rfl)
  | .error a, .error b =>
    if h : a = b then isTrue (by rw [h]) else isFalse (by intro hc; cases hc; exact h rfl)
  | .ok _, .error _ => isFalse (by intro hc; cases hc)
  | .error _, .ok _ => isFalse (by intro hc; cases hc)

/-- The body of `Base58CheckValidator.validate` with the length guard
removed, the comparison point for the guard-vacuity theorem. -/
def base58CheckValidateUnguarded (req : ValidationRequest) : Except PyErr Bool :=
  b58decode (requestCharset req) req.address >>= fun abytes =>
  pyGet abytes 0 >>= fun b0 =>
  requestNetworks req >>= fun nets =>
  if !decide (NetVal.byte b0 ∈ nets) then .ok false
  else if abytes.drop (abytes.length - 4) ≠
      (sha256Bytes (sha256Bytes (abytes.take (abytes.length - 4)))).take 4 then .ok false
  else .ok (decide (req.address = b58encode (requestCharset req) abytes))

/-- Decimal digit test, the character band 0 to 9. -/
def isAsciiDigit (c : Char) : Bool :=
  ['0', '1', '2', '3', '4', '5', '6', '7', '8', '9'].contains c

/-- The EIP-55 acceptance condition as the specification words it: at
every position of the stripped address, a digest nibble of at least 8
demands a character equal to its own uppercase form and a nibble below 8
demands one equal to its own lowercase form. -/
def eip55SpecHolds (address : List Char) : Prop :=
  ∀ i, i < (strip0x address).length →
    (8 ≤ hexVal ((eip55Digest (strip0x address)).getD i '0') →
      asciiUpper ((strip0x address).getD i ' ') = (strip0x address).getD i ' ') ∧
    (hexVal ((eip55Digest (strip0x address)).getD i '0') < 8 →
      asciiLower ((strip0x address).getD i ' ') = (strip0x address).getD i ' ')

/-- The request for the known-good bitcoin mainnet address of the spec's
test properties. -/
def boatReq : ValidationRequest :=
  { currency := bitcoinCurrency,
    address := strBytes "1BoatSLRHtKNngkdXEeobR76b53LETtpyT" }

/-- The decoded payload of the boat address: version byte 0, a 20-byte
hash, and the 4 checksum bytes. -/
def boatBytes : List Nat :=
  [0, 118, 128, 173, 236, 142, 171, 202, 186, 198, 118, 190, 158, 131,
   133, 74, 222, 11, 210, 44, 219, 11, 185, 96, 222]

/-- The request for the bitcoin currency and the one-character address 0,
whose character is outside the Base58 alphabet. -/
def reqZero : ValidationRequest :=
  { currency := bitcoinCurrency, address := strBytes "0" }

/-- The request for the bitcoin currency and the one-character address 2,
which decodes to the single byte 1, a version byte of no bitcoin
network. -/
def reqTwo : ValidationRequest :=
  { currency := bitcoinCurrency, address := strBytes "2" }

/-- The request for the bitcoin currency and the six-character address
1Wh4bh, the canonical Base58Check encoding of the payload holding version
byte 0, an empty body and its correct 4-byte double-SHA-256 checksum. -/
def reqShort : ValidationRequest :=
  { currency := bitcoinCurrency, address := strBytes "1Wh4bh" }

/-- A decoding helper that always fails, the probe showing that the
Monero validator's short-circuit path never invokes its decoder. -/
def failDecode : List Char → Except PyErr (Nat × Bool) :=
  fun _ => .error .valueError

/-- The 41-character address of 40 lowercase hex digits and one trailing
newline: the Ethereum legacy pattern accepts it through the trailing
newline rule of the anchor, though it is not 40 hex characters. -/
def fortyFNl : List Char := List.replicate 40 'f' ++ ['\n']

/-- The request for the ethereum currency and the newline-terminated
lowercase address. -/
def reqFortyFNl : ValidationRequest :=
  { currency := ethereumCurrency, address := fortyFNl.map Char.toNat }

/-- The 96-character Monero address of 95 alphabet characters and one
trailing newline: the standard-address regex accepts it through the
trailing newline rule of the anchor, though its length is neither 95 nor
106. -/
def xmrNl96 : List Char := List.replicate 95 '1' ++ ['\n']

/-- The request for the monero currency and the newline-terminated
96-character address. -/
def reqXmrNl96 : ValidationRequest :=
  { currency := moneroCurrency, address := xmrNl96.map Char.toNat }

/-! ## Structural lemmas -/

/-- Bind of a successful `Except` computation. -/
theorem exceptBind_ok {ε α β : Type} (a : α) (f : α → Except ε β) :
    ((Except.ok a : Except ε α) >>= f) = f a := rfl

/-- Bind of a failed `Except` computation. -/
theorem exceptBind_error {ε α β : Type} (e : ε) (f : α → Except ε β) :
    ((Except.error e : Except ε α) >>= f) = .error e := rfl

/-- Length of the hex rendering of a byte list. -/
theorem bytesToHex_length (l : List Nat) : (bytesToHex l).length = 2 * l.length := by
  induction l with
  | nil => rfl
  | cons b rest ih => simp [bytesToHex, ih]; omega

/-- Length of the Keccak squeeze output. -/
theorem keccakSqueeze_length (st : List Nat) : (keccakSqueeze st).length = 32 := by
  unfold keccakSqueeze natToLE
  rw [show List.range 4 = [0, 1, 2, 3] from rfl]
  simp

/-- Length of a Keccak-256 digest. -/
theorem keccak256Bytes_length (msg : List Nat) : (keccak256Bytes msg).length = 32 := by
  unfold keccak256Bytes
  exact keccakSqueeze_length _

/-- Length of the EIP-55 digest string: 64 hex characters. -/
theorem eip55Digest_length (addr : List Char) : (eip55Digest addr).length = 64 := by
  unfold eip55Digest
  rw [bytesToHex_length, keccak256Bytes_length]

/-- The per-position mismatch test fails exactly when the case of the
character agrees with its digest nibble. -/
theorem eip55Mismatch_false_iff (nib : Nat) (c : Char) :
    eip55Mismatch nib c = false ↔
      ((8 ≤ nib → asciiUpper c = c) ∧ (nib < 8 → asciiLower c = c)) := by
  unfold eip55Mismatch
  by_cases h : 8 ≤ nib
  · simp [h, Nat.not_lt.mpr h]
  · simp [h, Nat.lt_of_not_le h]

/-- Unfolding of the EIP-55 loop into a per-index condition, valid while
the digest is long enough for every index the loop will reach. -/
theorem eip55Loop_ok_true_iff (hash : List Char) :
    ∀ (rest : List Char) (i : Nat), i + rest.length ≤ hash.length →
      (eip55Loop hash i rest = .ok true ↔
        ∀ j, j < rest.length →
          eip55Mismatch (hexVal (hash.getD (i + j) '0')) (rest.getD j ' ') = false)
  | [], i, _ => by simp [eip55Loop]
  | c :: rest, i, h => by
    have hi : i < hash.length := by simp only [List.length_cons] at h; omega
    have hget : pyGet hash i = .ok (hash.getD i '0') := by
      unfold pyGet
      rw [List.get?_eq_get hi, List.getD_eq_get? , List.get?_eq_get hi]
      rfl
    have hcons : eip55Loop hash i (c :: rest) =
        (if eip55Mismatch (hexVal (hash.getD i '0')) c then Except.ok false
         else eip55Loop hash (i + 1) rest) := by
      rw [show eip55Loop hash i (c :: rest) = pyGet hash i >>=
            (fun hc => if eip55Mismatch (hexVal hc) c then Except.ok false
                       else eip55Loop hash (i + 1) rest) from rfl,
          hget]
      rfl
    rw [hcons]
    by_cases hm : eip55Mismatch (hexVal (hash.getD i '0')) c = true
    · rw [if_pos hm]
      constructor
      · intro hfalse
        exact absurd (Except.ok.inj hfalse) (by simp)
      · intro hall
        have h0 := hall 0 (by simp)
        rw [Nat.add_zero] at h0
        simp only [List.getD_cons_zero] at h0
        rw [hm] at h0
        cases h0
    · have hm' : eip55Mismatch (hexVal (hash.getD i '0')) c = false := by
        revert hm
        cases eip55Mismatch (hexVal (hash.getD i '0')) c <;> simp
      rw [if_neg (by rw [hm']; simp)]
      have hlen : i + 1 + rest.length ≤ hash.length := by
        simp only [List.length_cons] at h; omega
      rw [eip55Loop_ok_true_iff hash rest (i + 1) hlen]
      constructor
      · intro hrec j hj
        match j with
        | 0 =>
          rw [Nat.add_zero]
          simp only [List.getD_cons_zero]
          exact hm'
        | j + 1 =>
          have heq : i + (j + 1) = i + 1 + j := by omega
          rw [heq]
          simp only [List.getD_cons_succ]
          exact hrec j (by simp only [List.length_cons] at hj; omega)
      · intro hall j hj
        have hsh := hall (j + 1) (by simp only [List.length_cons]; omega)
        have heq : i + (j + 1) = i + 1 + j := by omega
        rw [heq] at hsh
        simp only [List.getD_cons_succ] at hsh
        exact hsh

/-! ## Claims -/

/-- Claim C1, counterexample: for the registered bitcoin currency and the
address 0 (a character outside the Base58 alphabet, so the bound
validator's internal decoding fails), executing the validation request
does not return a normal ValidationResult with valid = false; it
propagates the decode failure as a raised CoinaddrException wrapping the
ValueError. -/
theorem c1_decode_failure_raises_cex :
    executeRequest reqZero = .error (.coinaddrException .valueError) ∧
    ∀ r : ValidationResult, executeRequest reqZero ≠ .ok r := by
  refine ⟨by decide, ?_⟩
  intro r hr
  rw [show executeRequest reqZero = .error (.coinaddrException .valueError) from by decide] at hr
  cases hr

/-- Claim C1 (amended): execute() catches an internal validator failure
but re-raises it wrapped as a CoinaddrException rather than reporting
valid = false: whenever the bound validator's validate() raises an
internal error e, execute() raises CoinaddrException(e) and returns no
ValidationResult at all.  Configuration-tier errors (unknown validator
scheme) are still surfaced separately. -/
theorem c1_execute_wraps_validator_error (req : ValidationRequest)
    (impl : ValidatorImpl) (e : PyErr)
    (himpl : validatorsGet req.currency.validator = some impl)
    (herr : impl.validate req = .error e) :
    executeRequest req = .error (.coinaddrException e) := by
  simp only [executeRequest, himpl, herr, exceptBind_error]

/-- Claim C1 (amended), witness at the bitcoin currency and address 0. -/
theorem c1_execute_wraps_validator_error_witness :
    validatorsGet reqZero.currency.validator = some base58CheckImpl ∧
    base58CheckImpl.validate reqZero = .error .valueError ∧
    executeRequest reqZero = .error (.coinaddrException .valueError) :=
  ⟨rfl, by decide,
    c1_execute_wraps_validator_error reqZero base58CheckImpl .valueError rfl (by decide)⟩

/-- Claim C2, counterexample: the six-character bitcoin address 1Wh4bh,
far outside the claimed [25, 35] length band, is not rejected: the
Base58Check validator accepts it as fully valid (it decodes, carries the
mainnet version byte 0, its double-SHA-256 checksum matches, and it
re-encodes to itself). -/
theorem c2_short_address_accepted_cex :
    base58CheckValidate reqShort = .ok true ∧ reqShort.address.length = 6 :=
  ⟨by decide, by decide⟩

/-- Claim C2 (amended): the length guard `25 > len(address) > 35` of
Base58CheckValidator.validate is an unsatisfiable chained comparison, so
no address of any length is rejected by it: validate() behaves exactly as
the same algorithm with the guard removed, and accepted addresses are not
length-constrained. -/
theorem c2_length_guard_vacuous (req : ValidationRequest) :
    base58CheckValidate req = base58CheckValidateUnguarded req := by
  unfold base58CheckValidate base58CheckValidateUnguarded
  rw [if_neg (by omega)]

/-- Claim C3, counterexample: for the bitcoin currency and the address 2
(which decodes to the single byte 1, a version byte belonging to no
bitcoin network), validate() determines valid = false and the network
property resolves to None, yet execute() does not return a normal
ValidationResult with an absent network: the ValidationResult field
validator `instance_of(str)` rejects None, and execute() raises a
CoinaddrException wrapping that TypeError. -/
theorem c3_absent_network_cex :
    base58CheckValidate reqTwo = .ok false ∧
    base58CheckNetwork reqTwo = .ok none ∧
    executeRequest reqTwo = .error (.coinaddrException .typeError) :=
  ⟨by decide, by decide, by decide⟩

/-- Claim C3 (amended): when the validator completes with any verdict and
its network property resolves to None (no network's value set contains
the decoded leading byte), execute() cannot produce the ValidationResult:
the construction fails its string-type validation on the network field
and execute() raises CoinaddrException(TypeError) instead of returning a
Result with an absent network. -/
theorem c3_none_network_raises (req : ValidationRequest)
    (impl : ValidatorImpl) (b : Bool)
    (himpl : validatorsGet req.currency.validator = some impl)
    (hvalid : impl.validate req = .ok b)
    (hnet : impl.network req = .ok none) :
    executeRequest req = .error (.coinaddrException .typeError) := by
  simp only [executeRequest, himpl, hvalid, hnet, exceptBind_ok]
  rfl

/-- Claim C3 (amended), witness at the bitcoin currency and address 2. -/
theorem c3_none_network_raises_witness :
    validatorsGet reqTwo.currency.validator = some base58CheckImpl ∧
    base58CheckImpl.validate reqTwo = .ok false ∧
    base58CheckImpl.network reqTwo = .ok none ∧
    executeRequest reqTwo = .error (.coinaddrException .typeError) :=
  ⟨rfl, by decide, by decide,
    c3_none_network_raises reqTwo base58CheckImpl false rfl (by decide) (by decide)⟩

/-- Claim C4: every address whose bytes decode to text matching the
all-lowercase-hex pattern `^(0x)?[0-9a-f]{40}$` or the all-uppercase-hex
pattern `^(0x)?[0-9A-F]{40}$` is accepted unconditionally by the
Ethereum-scheme validator, with no checksum computation. -/
theorem c4_legacy_case_accepted (req : ValidationRequest) (chars : List Char)
    (hdec : decodeAscii req.address = .ok chars)
    (hmatch : matchHex40 isLowerHex chars = true ∨ matchHex40 isUpperHex chars = true) :
    ethereumValidate req = .ok true := by
  have hm : nonChecksummedMatch chars = true := by
    unfold nonChecksummedMatch
    rcases hmatch with hone | hone <;> simp [hone]
  simp only [ethereumValidate, hdec, exceptBind_ok, hm, if_true]

/-- Claim C4, witness at the ethereum currency and an all-lowercase
40-hex-character address. -/
theorem c4_legacy_case_accepted_witness :
    decodeAscii (strBytes "aaaaaaaaaaaaaaaaaaaaaaaaaaaaaaaaaaaaaaaa") =
      .ok "aaaaaaaaaaaaaaaaaaaaaaaaaaaaaaaaaaaaaaaa".toList ∧
    matchHex40 isLowerHex "aaaaaaaaaaaaaaaaaaaaaaaaaaaaaaaaaaaaaaaa".toList = true ∧
    ethereumValidate { currency := ethereumCurrency,
                       address := strBytes "aaaaaaaaaaaaaaaaaaaaaaaaaaaaaaaaaaaaaaaa" } =
      .ok true :=
  ⟨by decide, by decide,
    c4_legacy_case_accepted
      { currency := ethereumCurrency,
        address := strBytes "aaaaaaaaaaaaaaaaaaaaaaaaaaaaaaaaaaaaaaaa" }
      "aaaaaaaaaaaaaaaaaaaaaaaaaaaaaaaaaaaaaaaa".toList
      (by decide) (Or.inl (by decide))⟩

/-- Claim C7, counterexample: the 96-character address of 95 alphabet
characters and a trailing newline has a length that is neither 95 nor
106, yet the standard-address regex matches it (the anchor accepts the
trailing newline), so block-Base58 decoding is attempted: a decoder that
always fails surfaces its failure, and the concrete decoder also raises
on the newline — validate() does not return false without decoding. -/
theorem c7_newline_decode_attempted_cex :
    xmrNl96.length = 96 ∧
    moneroValidateWith failDecode reqXmrNl96 = .error .valueError ∧
    moneroValidate reqXmrNl96 = .error .valueError :=
  ⟨by decide, by decide, by decide⟩

/-- Claim C7 (amended): an address for the Monero-scheme validator whose
decoded text matches neither address regex — exactly 95 (standard) or 106
(integrated) alphabet characters, or either of those followed by one
trailing newline, which the anchor also accepts — yields valid = false,
and this holds for every possible decoding function, so no block-Base58
decoding is attempted on it. -/
theorem c7_monero_length_reject (dec : List Char → Except PyErr (Nat × Bool))
    (req : ValidationRequest) (chars : List Char)
    (hdec : decodeAscii req.address = .ok chars)
    (h95 : xmrMatch 95 chars = false)
    (h106 : xmrMatch 106 chars = false) :
    moneroValidateWith dec req = .ok false := by
  simp only [moneroValidateWith, hdec, exceptBind_ok, h95, h106,
    Bool.false_eq_true, if_false]

/-- Claim C7, witness at the monero currency, the three-character address
abc, and a decoding function that always fails (so a decode attempt would
surface as an error, not as valid = false). -/
theorem c7_monero_length_reject_witness :
    decodeAscii (strBytes "abc") = .ok ['a', 'b', 'c'] ∧
    xmrMatch 95 ['a', 'b', 'c'] = false ∧
    xmrMatch 106 ['a', 'b', 'c'] = false ∧
    moneroValidateWith failDecode
      { currency := moneroCurrency, address := strBytes "abc" } = .ok false :=
  ⟨by decide, by decide, by decide,
    c7_monero_length_reject failDecode
      { currency := moneroCurrency, address := strBytes "abc" } ['a', 'b', 'c']
      (by decide) (by decide) (by decide)⟩

/-- Claim C8: looking the catalog up by a registered currency's name and
by its ticker returns the same entry, and an identifier matching no
registered name or ticker yields the absent default None rather than an
error. -/
theorem c8_lookup_name_ticker_agree :
    (∀ c, c ∈ currenciesList → currenciesGet c.name = currenciesGet c.ticker) ∧
    (∀ s, (∀ c, c ∈ currenciesList → s ≠ c.name ∧ s ≠ c.ticker) →
      currenciesGet s = none) := by
  constructor
  · decide
  · intro s hall
    unfold currenciesGet
    rw [List.find?_eq_none]
    intro c hc
    have hne := hall c hc
    simp [hne.1, hne.2]

/-- Claim C8, witness at the bitcoin entry and the unregistered
identifier zzz. -/
theorem c8_lookup_name_ticker_agree_witness :
    currenciesGet bitcoinCurrency.name = currenciesGet bitcoinCurrency.ticker ∧
    currenciesGet "zzz" = none :=
  ⟨c8_lookup_name_ticker_agree.1 bitcoinCurrency (by decide),
    c8_lookup_name_ticker_agree.2 "zzz" (by decide)⟩

/-- Claim C9, counterexample: the 41-character address of 40 lowercase
hex digits and a trailing newline is not 40 hex characters, yet it does
not fall through to the per-position case check: the legacy pattern
matches it (the anchor accepts the trailing newline) and validate()
returns true unconditionally, while the per-position check on the same
address yields false. -/
theorem c9_newline_legacy_accepted_cex :
    fortyFNl.length = 41 ∧
    nonChecksummedMatch fortyFNl = true ∧
    ethereumValidate reqFortyFNl = .ok true ∧
    ethereumChecksumPath fortyFNl = .ok false :=
  ⟨by decide, by decide, by decide, by decide⟩

/-- Claim C9 (amended): the Ethereum-scheme validator's mixed-case branch
imposes no length requirement: an address matching neither all-one-case
pattern — the match including the anchor's trailing-newline acceptance —
falls through to the per-position case check, and in particular the empty
address and the bare prefix 0x make that loop vacuous, so validate()
returns true for them; a non-40-hex address that matches a pattern
through a trailing newline is instead accepted without the check. -/
theorem c9_no_length_check :
    ethereumValidate { currency := ethereumCurrency, address := strBytes "" } = .ok true ∧
    ethereumValidate { currency := ethereumCurrency, address := strBytes "0x" } = .ok true ∧
    ∀ (req : ValidationRequest) (chars : List Char),
      decodeAscii req.address = .ok chars →
      nonChecksummedMatch chars = false →
      ethereumValidate req = ethereumChecksumPath chars := by
  refine ⟨by decide, by decide, ?_⟩
  intro req chars hdec hnomatch
  simp only [ethereumValidate, hdec, exceptBind_ok, hnomatch,
    Bool.false_eq_true, if_false]

/-- Claim C9, witness of the fall-through at the two-character mixed-case
address aB, which is not 40 hex characters long. -/
theorem c9_no_length_check_witness :
    decodeAscii (strBytes "aB") = .ok ['a', 'B'] ∧
    nonChecksummedMatch ['a', 'B'] = false ∧
    ethereumValidate { currency := ethereumCurrency, address := strBytes "aB" } =
      ethereumChecksumPath ['a', 'B'] :=
  ⟨by decide, by decide, c9_no_length_check.2.2 _ _ (by decide) (by decide)⟩

/-- Claim C10: in the EIP-55 checksum loop, a decimal-digit address
character can never cause a mismatch: for every digest nibble value the
per-position mismatch test of the loop body is false, because a digit
equals both its own uppercase and its own lowercase form. -/
theorem c10_digits_never_mismatch (nib : Nat) (c : Char)
    (h : isAsciiDigit c = true) :
    eip55Mismatch nib c = false := by
  have hmem : c ∈ ['0', '1', '2', '3', '4', '5', '6', '7', '8', '9'] := by
    simpa [isAsciiDigit] using h
  have hu : asciiUpper c = c := by fin_cases hmem <;> rfl
  have hl : asciiLower c = c := by fin_cases hmem <;> rfl
  simp [eip55Mismatch, hu, hl]

/-- Claim C10, witness at the digit 7 and the nibble 12 (which demands
upper case). -/
theorem c10_digits_never_mismatch_witness :
    isAsciiDigit '7' = true ∧ eip55Mismatch 12 '7' = false :=
  ⟨by decide, c10_digits_never_mismatch 12 '7' (by decide)⟩

/-- Claim C5: for a mixed-case address (neither all-one-case pattern
matching, here with the stripped address no longer than the 64-character
digest so every loop index denotes a digest digit), the Ethereum-scheme
validator returns true exactly when at every position the digest nibble
of the Keccak-256 hex digest of the lowercased address dictates the
character's case: a nibble of at least 8 demands the character equal its
own uppercase form and a smaller nibble demands its own lowercase form. -/
theorem c5_eip55_checksum_iff (req : ValidationRequest) (chars : List Char)
    (hdec : decodeAscii req.address = .ok chars)
    (hnomatch : nonChecksummedMatch chars = false)
    (hlen : (strip0x chars).length ≤ 64) :
    (ethereumValidate req = .ok true ↔ eip55SpecHolds chars) := by
  simp only [ethereumValidate, hdec, exceptBind_ok, hnomatch,
    Bool.false_eq_true, if_false]
  show eip55Loop (eip55Digest (strip0x chars)) 0 (strip0x chars) = .ok true ↔ _
  rw [eip55Loop_ok_true_iff (eip55Digest (strip0x chars)) (strip0x chars) 0
      (by rw [eip55Digest_length]; omega)]
  unfold eip55SpecHolds
  refine forall_congr' fun j => ?_
  refine imp_congr_right fun hj => ?_
  rw [Nat.zero_add]
  exact eip55Mismatch_false_iff _ _

/-- Claim C5, witness at the two-character mixed-case address aB. -/
theorem c5_eip55_checksum_iff_witness :
    decodeAscii (strBytes "aB") = .ok ['a', 'B'] ∧
    nonChecksummedMatch ['a', 'B'] = false ∧
    (strip0x ['a', 'B']).length ≤ 64 ∧
    (ethereumValidate { currency := ethereumCurrency, address := strBytes "aB" } =
        .ok true ↔ eip55SpecHolds ['a', 'B']) :=
  ⟨by decide, by decide, by decide,
    c5_eip55_checksum_iff { currency := ethereumCurrency, address := strBytes "aB" }
      ['a', 'B'] (by decide) (by decide) (by decide)⟩

/-- Claim C6: every address the Base58Check validator accepts as valid
re-encodes from its decoded bytes to exactly the original input, since
acceptance requires the final byte-exact comparison of the input with
the re-encoding; an address failing that comparison is rejected even with
a correct version byte and checksum. -/
theorem c6_canonical_reencode (req : ValidationRequest) (abytes : List Nat)
    (hdec : b58decode (requestCharset req) req.address = .ok abytes)
    (hvalid : base58CheckValidate req = .ok true) :
    b58encode (requestCharset req) abytes = req.address := by
  unfold base58CheckValidate at hvalid
  rw [if_neg (by omega), hdec, exceptBind_ok] at hvalid
  cases hb0 : pyGet abytes 0 with
  | error e => rw [hb0, exceptBind_error] at hvalid; simp at hvalid
  | ok b0 =>
    rw [hb0, exceptBind_ok] at hvalid
    cases hnets : requestNetworks req with
    | error e => rw [hnets, exceptBind_error] at hvalid; simp at hvalid
    | ok nets =>
      rw [hnets, exceptBind_ok] at hvalid
      by_cases hmem : (!decide (NetVal.byte b0 ∈ nets)) = true
      · rw [if_pos hmem] at hvalid
        simp at hvalid
      · rw [if_neg hmem] at hvalid
        by_cases hck : abytes.drop (abytes.length - 4) ≠
            (sha256Bytes (sha256Bytes (abytes.take (abytes.length - 4)))).take 4
        · rw [if_pos hck] at hvalid
          simp at hvalid
        · rw [if_neg hck] at hvalid
          exact (of_decide_eq_true (Except.ok.inj hvalid)).symm

/-- Claim C6, witness at the known-good bitcoin mainnet address of the
spec's test properties and its decoded 25-byte payload. -/
theorem c6_canonical_reencode_witness :
    b58decode (requestCharset boatReq) boatReq.address = .ok boatBytes ∧
    base58CheckValidate boatReq = .ok true ∧
    b58encode (requestCharset boatReq) boatBytes = boatReq.address :=
  ⟨by decide, by decide, c6_canonical_reencode boatReq boatBytes (by decide) (by decide)⟩
